import Mathlib

/-!
Shallow embedding of the fanotify backend of the fsnotify fork
(`backend_fanotify.go` and the two unnamed Go source files sharing the
`fsnotify` package).  Machine integers are modelled as `Nat` (all the
values involved are non-negative and no arithmetic in the modelled code
overflows); bitmask operations use `Nat.land` / `Nat.lor` / `Nat.xor`;
fallible code returns dedicated result inductives; Go run-time aborts
(index out of range, closing a closed channel, explicit aborts) are
modelled as distinguished result constructors.
-/

/-! ## Constants from `golang.org/x/sys/unix` (Linux fanotify UAPI values) -/

def FAN_CLOEXEC : Nat := 0x00000001
def FAN_CLASS_NOTIF : Nat := 0x00000000
def FAN_CLASS_CONTENT : Nat := 0x00000004
def FAN_CLASS_PRE_CONTENT : Nat := 0x00000008
def FAN_ENABLE_AUDIT : Nat := 0x00000040
def FAN_REPORT_FID : Nat := 0x00000200
def FAN_REPORT_DIR_FID : Nat := 0x00000400
def FAN_REPORT_NAME : Nat := 0x00000800
def FAN_REPORT_DFID_NAME : Nat := 0x00000C00

def FAN_ACCESS : Nat := 0x00000001
def FAN_MODIFY : Nat := 0x00000002
def FAN_ATTRIB : Nat := 0x00000004
def FAN_CLOSE_WRITE : Nat := 0x00000008
def FAN_CLOSE_NOWRITE : Nat := 0x00000010
def FAN_OPEN : Nat := 0x00000020
def FAN_MOVED_FROM : Nat := 0x00000040
def FAN_MOVED_TO : Nat := 0x00000080
def FAN_CREATE : Nat := 0x00000100
def FAN_DELETE : Nat := 0x00000200
def FAN_DELETE_SELF : Nat := 0x00000400
def FAN_MOVE_SELF : Nat := 0x00000800
def FAN_OPEN_EXEC : Nat := 0x00001000
def FAN_OPEN_PERM : Nat := 0x00010000
def FAN_ACCESS_PERM : Nat := 0x00020000
def FAN_OPEN_EXEC_PERM : Nat := 0x00040000
def FAN_EVENT_ON_CHILD : Nat := 0x08000000
def FAN_ONDIR : Nat := 0x40000000
def FAN_MOVE : Nat := FAN_MOVED_FROM ||| FAN_MOVED_TO

def FAN_MARK_ADD : Nat := 0x00000001
def FAN_MARK_REMOVE : Nat := 0x00000002
def FAN_MARK_MOUNT : Nat := 0x00000010
def FAN_MARK_FLUSH : Nat := 0x00000080

def FAN_EVENT_INFO_TYPE_FID : Nat := 1
def FAN_EVENT_INFO_TYPE_DFID_NAME : Nat := 2
def FAN_EVENT_INFO_TYPE_DFID : Nat := 3

def FANOTIFY_METADATA_VERSION : Nat := 3

/-- Size in bytes of `unix.FanotifyEventMetadata`
(`Event_len u32 + Vers u8 + Reserved u8 + Metadata_len u16 + Mask u64 + Fd i32 + Pid i32`). -/
def sizeOfFanotifyEventMetadata : Nat := 24

/-- Go strings are modelled as lists of characters so that the byte/rune level
operations of the source (`strings.TrimLeft`, `strings.Fields`, prefix tests)
can be translated directly. -/
abbrev GoStr := List Char

/-! ## Kernel version probe (`kernelVersion`, part_000 lines 60-78)

The Go function runs `uname`, extracts all decimal runs of the release string
with the regular expression `([0-9]+)` and indexes the first three matches
without checking how many matches there are.  The model takes the release
string as input (the `uname` syscall is the environment) and models the
unchecked indexing: fewer than three runs is a Go run-time abort
(index out of range), not a returned error. -/

/-- Helper of `digitRuns`: `acc` holds the (reversed) current run of digits. -/
def digitRunsAux : GoStr → GoStr → List GoStr
  | [], acc => if acc.isEmpty then [] else [acc.reverse]
  | c :: cs, acc =>
    if c.isDigit then digitRunsAux cs (c :: acc)
    else if acc.isEmpty then digitRunsAux cs []
    else acc.reverse :: digitRunsAux cs []

/-- Maximal runs of decimal digits of a string, in order: the value of Go's
`regexp.MustCompile(`+"`([0-9]+)`"+`).FindAllString(s, -1)` (the pattern is
greedy and leftmost-first, so each match is a maximal digit run). -/
def digitRuns (s : GoStr) : List GoStr := digitRunsAux s []

/-- Decimal value of a digit run; `strconv.Atoi` on a non-empty all-digit
string returns exactly this value (overflow past `int64` cannot occur for
kernel release components). -/
def natOfDigits (ds : GoStr) : Nat := ds.foldl (fun a c => 10 * a + (c.toNat - '0'.toNat)) 0

/-- Outcome of `kernelVersion` for a given release string.  `aborted` stands
for a Go run-time index-out-of-range abort. -/
inductive KernelVersionResult where
  | ok (maj min patch : Nat)
  | aborted
deriving DecidableEq, Repr

/-- Model of `kernelVersion` (part_000 lines 60-78) applied to the release
string obtained from `uname`: `version := re.FindAllString(release, -1)` and
then `version[0]`, `version[1]`, `version[2]` are parsed with `strconv.Atoi`.
When the regexp finds fewer than three runs, the Go code indexes past the end
of the slice and the program aborts. -/
def kernelVersionOf (release : GoStr) : KernelVersionResult :=
  match digitRuns release with
  | a :: b :: c :: _ => .ok (natOfDigits a) (natOfDigits b) (natOfDigits c)
  | _ => .aborted

/-! ## Init-flag negotiation (`newFanotifyWatcher`, part_000 lines 284-299) -/

/-- Init flags chosen by the `switch` on the detected kernel version in
`newFanotifyWatcher` (part_000 lines 284-299). -/
def newWatcherInitFlags (maj min : Nat) : Nat :=
  if maj < 5 then FAN_CLASS_NOTIF ||| FAN_CLOEXEC
  else if maj = 5 then
    if min < 1 then FAN_CLASS_NOTIF ||| FAN_CLOEXEC
    else if min < 9 then FAN_CLASS_NOTIF ||| FAN_CLOEXEC ||| FAN_REPORT_FID
    else FAN_CLASS_NOTIF ||| FAN_CLOEXEC ||| FAN_REPORT_DIR_FID ||| FAN_REPORT_NAME
  else FAN_CLASS_NOTIF ||| FAN_CLOEXEC ||| FAN_REPORT_DIR_FID ||| FAN_REPORT_NAME

/-! ## Kernel-support tables
(`fanotifyInitFlagsKernelSupport` part_000 lines 191-226 and
`fanotifyMarkFlagsKernelSupport` lines 231-268)

Both Go functions range over a Go map from flag to minimum kernel version.
Go map iteration order is unspecified and varies between runs, so the model
takes the iteration order as an explicit list parameter; the two tables below
give the map entries (in source-text order, one of the possible iteration
orders). -/

/-- One entry of a flag-support table: a flag and the minimum kernel
`(maj, min)` supporting it. -/
structure FlagEntry where
  flag : Nat
  kmaj : Nat
  kmin : Nat
deriving DecidableEq, Repr

/-- Body of the `check` closure of both support functions: the version test
performed once the flag was found set. -/
def flagVersionOK (e : FlagEntry) (maj min : Nat) : Bool :=
  if maj > e.kmaj then true
  else if maj = e.kmaj && min ≥ e.kmin then true
  else false

/-- The `for flag, ver := range …` loop of both support functions: for the
first entry whose flag is contained in `flags` the loop returns that entry's
version verdict; when no listed flag is set it falls through to `true`. -/
def flagsKernelSupportLoop (flags maj min : Nat) : List FlagEntry → Bool
  | [] => true
  | e :: rest =>
    if flags &&& e.flag = e.flag then flagVersionOK e maj min
    else flagsKernelSupportLoop flags maj min rest

/-- Entries of the `flagPerKernelVersion` map of
`fanotifyInitFlagsKernelSupport` (part_000 lines 197-203). -/
def fanotifyInitFlagTable : List FlagEntry :=
  [⟨FAN_ENABLE_AUDIT, 4, 15⟩,
   ⟨FAN_REPORT_FID, 5, 1⟩,
   ⟨FAN_REPORT_DIR_FID, 5, 9⟩,
   ⟨FAN_REPORT_NAME, 5, 9⟩,
   ⟨FAN_REPORT_DFID_NAME, 5, 9⟩]

/-- Entries of the `fanotifyMarkFlags` map of
`fanotifyMarkFlagsKernelSupport` (part_000 lines 237-245). -/
def fanotifyMarkFlagTable : List FlagEntry :=
  [⟨FAN_OPEN_EXEC, 5, 0⟩,
   ⟨FAN_ATTRIB, 5, 1⟩,
   ⟨FAN_CREATE, 5, 1⟩,
   ⟨FAN_DELETE, 5, 1⟩,
   ⟨FAN_DELETE_SELF, 5, 1⟩,
   ⟨FAN_MOVED_FROM, 5, 1⟩,
   ⟨FAN_MOVED_TO, 5, 1⟩]

/-! ## Mark-mask validation and `fanotifyMark` (part_000 lines 108-122, 534-545) -/

/-- The `isSet` helper of the Go source: all bits of `k` are present in `n`. -/
def hasBits (n k : Nat) : Bool := n &&& k == k

/-- Model of `isFanotifyMarkMaskValid` (part_000 lines 108-122); the Go
function returns a non-nil error exactly when this returns `false`. -/
def isFanotifyMarkMaskValid (flags : Nat) (mask : Nat) : Bool :=
  if hasBits flags FAN_MARK_MOUNT then
    !(hasBits mask FAN_CREATE ||
      hasBits mask FAN_ATTRIB ||
      hasBits mask FAN_MOVE ||
      hasBits mask FAN_DELETE_SELF ||
      hasBits mask FAN_DELETE)
  else true

/-- Outcome of `(*Watcher).fanotifyMark`.  `aborted` is the Go run-time abort
raised when the kernel-support check fails, `invalidCombo` the wrapped
`errInvalidFlagCombination` error, and `syscalled` records that
`unix.FanotifyMark` was reached with the given flags and mask (the only path
that can mutate kernel mark state). -/
inductive MarkResult where
  | aborted
  | invalidCombo
  | syscalled (flags : Nat) (mask : Nat)
deriving DecidableEq, Repr

/-- Model of `(*Watcher).fanotifyMark` (part_000 lines 534-545): first the
kernel-support check on the mask (a Go map iteration, order passed
explicitly), then `isFanotifyMarkMaskValid`, and only then the
`unix.FanotifyMark` syscall. -/
def fanotifyMark (order : List FlagEntry) (maj min : Nat) (flags : Nat) (mask : Nat) :
    MarkResult :=
  if flagsKernelSupportLoop mask maj min order = false then .aborted
  else if isFanotifyMarkMaskValid flags mask = false then .invalidCombo
  else .syscalled flags mask

/-! ## Close models

Two closes exist in the repository: `(*Watcher).closeFanotify` (part_000
lines 431-446), guarded by the `closeOnce` `sync.Once`, and
`(*FanotifyWatcher).Close` (backend_fanotify.go lines 198-210), which has no
guard.  In Go, `close` of an already-closed channel aborts the program, so
the unguarded close is modelled with `Option` (`none` = run-time abort). -/

/-- Observable close-related state of a watcher: which resources have been
released and whether the one-shot `closeOnce` has fired. -/
structure WatcherCloseState where
  onceDone : Bool
  doneClosed : Bool
  stopWritten : Bool
  fdClosed : Bool
  isClosed : Bool
  mountClosed : Bool
  stopperRClosed : Bool
  stopperWClosed : Bool
  eventsClosed : Bool
  permEventsClosed : Bool
  errorsClosed : Bool
deriving DecidableEq, Repr

/-- State of a freshly constructed watcher: nothing closed yet. -/
def initialWatcherState : WatcherCloseState :=
  ⟨false, false, false, false, false, false, false, false, false, false, false⟩

/-- Model of `(*Watcher).closeFanotify` (part_000 lines 431-446): the whole
body runs under `closeOnce.Do`, so when the once has already fired the call
is a no-op; otherwise it signals `done`, writes the stop byte, closes the
fanotify fd, the mount-point file, both pipe ends, and the three channels. -/
def closeFanotify (s : WatcherCloseState) : WatcherCloseState :=
  if s.onceDone then s
  else
    { onceDone := true
      doneClosed := true
      stopWritten := true
      fdClosed := true
      isClosed := true
      mountClosed := true
      stopperRClosed := true
      stopperWClosed := true
      eventsClosed := true
      permEventsClosed := true
      errorsClosed := true }

/-- Model of `(*FanotifyWatcher).Close` (backend_fanotify.go lines 198-210).
The body has no once-guard: it writes the stop byte, closes the mount-point
file and both pipe ends (`os.File.Close` on a closed file returns an error
that the code ignores), then runs `close(w.Events)` and
`close(w.PermissionEvents)` — closing an already-closed Go channel aborts the
program, modelled as `none` — and finally closes the fanotify fd. -/
def fanotifyWatcherClose (s : WatcherCloseState) : Option WatcherCloseState :=
  if s.eventsClosed then none
  else if s.permEventsClosed then none
  else some { s with
    stopWritten := true
    mountClosed := true
    stopperRClosed := true
    stopperWClosed := true
    eventsClosed := true
    permEventsClosed := true
    fdClosed := true }

/-! ## Operation mask (`toOp`, part_000 lines 739-778)

The generic `Op` surface (the cross-platform `Event`/`Op` front-end) is not
part of the given sources; only its variant names are known.  `Op` is
therefore modelled from the spec as a bitset over the twelve variants, one
boolean field per variant (`toOp` in the source builds the value with one
independent `op |= variant` per matched fanotify bit, which is exactly one
field assignment per variant here).  `opOpen` stands for the `Open` variant
(`open` is reserved in Lean). -/

structure Op where
  create : Bool
  write : Bool
  remove : Bool
  rename : Bool
  chmod : Bool
  read : Bool
  close : Bool
  opOpen : Bool
  execute : Bool
  permissionToOpen : Bool
  permissionToExecute : Bool
  permissionToRead : Bool
deriving DecidableEq, Repr

/-- Model of `(fanotifyEventType).toOp` (part_000 lines 739-778): each `if
e.Has(bit) { op |= variant }` of the source sets the corresponding field. -/
def toOp (e : Nat) : Op where
  create := hasBits e FAN_CREATE || hasBits e FAN_MOVED_TO
  remove := hasBits e FAN_DELETE || hasBits e FAN_DELETE_SELF
  write := hasBits e FAN_MODIFY || hasBits e FAN_CLOSE_WRITE
  rename := hasBits e FAN_MOVE_SELF || hasBits e FAN_MOVED_FROM
  chmod := hasBits e FAN_ATTRIB
  read := hasBits e FAN_ACCESS
  close := hasBits e FAN_CLOSE_NOWRITE
  opOpen := hasBits e FAN_OPEN
  execute := hasBits e FAN_OPEN_EXEC
  permissionToOpen := hasBits e FAN_OPEN_PERM
  permissionToExecute := hasBits e FAN_OPEN_EXEC_PERM
  permissionToRead := hasBits e FAN_ACCESS_PERM

/-- An `Op` contains at least one `Permission*` variant. -/
def Op.hasPermission (o : Op) : Bool :=
  o.permissionToOpen || o.permissionToExecute || o.permissionToRead

/-! ## Event-stream decoder (`readFanotifyEvents`, part_000 lines 555-689) -/

/-- `unix.FAN_NOFD`: the fd value marking FID-mode records. -/
def FAN_NOFD : Int := -1

/-- Mask normalization of the decoder (part_000 lines 598-601 and 664-667):
clear the `FAN_ONDIR` bit when present (`mask = mask ^ FAN_ONDIR`). -/
def clearOnDirMask (mask : Nat) : Nat :=
  if mask &&& FAN_ONDIR = FAN_ONDIR then mask ^^^ FAN_ONDIR else mask

/-- The permission-routing test of the decoder (part_000 lines 610-612):
the (normalized) mask contains `FAN_ACCESS_PERM`, `FAN_OPEN_PERM` or
`FAN_OPEN_EXEC_PERM`. -/
def hasPermBits (mask : Nat) : Bool :=
  hasBits mask FAN_ACCESS_PERM || hasBits mask FAN_OPEN_PERM ||
    hasBits mask FAN_OPEN_EXEC_PERM

/-- Everything the decoder extracts from the bytes of the buffer starting at
one offset: the `fanotify_event_metadata` fields, the info-record type found
at `metadata_len` into the record, the null-terminated name that
`getFileHandleWithName` would read there, and the outcomes of the two
syscalls the decoder performs for the record (`readlink` of
`/proc/self/fd/{fd}` in the classic branch, `open_by_handle_at` in the FID
branch).  A read buffer is modelled as the total function from offsets to
these views. -/
structure FanotifyRecord where
  event_len : Nat
  vers : Nat
  metadata_len : Nat
  mask : Nat
  fd : Int
  pid : Nat
  infoType : Nat
  fileName : GoStr
  readlinkOk : Bool
  openOk : Bool
deriving DecidableEq, Repr

/-- Model of `fanotifyEventOK` (part_000 lines 270-274). -/
def fanotifyEventOK (m : FanotifyRecord) (n : Nat) : Bool :=
  decide (sizeOfFanotifyEventMetadata ≤ n) &&
  decide (sizeOfFanotifyEventMetadata ≤ m.event_len) &&
  decide (m.event_len ≤ n)

/-- One delivery action of the decoder loop body. -/
inductive Step where
  | permEv (op : Op)
  | notifEv (op : Op)
  | errSent
  | skipped
  | abortVers
deriving DecidableEq, Repr

/-- Model of one iteration of the inner loop of `readFanotifyEvents`
(part_000 lines 584-685), after the metadata-version check: the delivery
action taken for the record together with the amount added to the byte
offset `i`.  In every branch of the source the remaining count `n` drops by
`event_len`; the offset `i` also advances by `event_len`, except that the
`FAN_EVENT_INFO_TYPE_DFID_NAME` branch first executes
`i += len(fileName)` (line 645) and later `i += int(metadata.Event_len)`,
so there `i` advances by `event_len + len(fileName)`. -/
def handleRecord (m : FanotifyRecord) : Step × Nat :=
  if m.fd ≠ FAN_NOFD then
    if m.readlinkOk = false then (.errSent, m.event_len)
    else
      if hasPermBits (clearOnDirMask m.mask) then
        (.permEv (toOp (clearOnDirMask m.mask)), m.event_len)
      else (.notifEv (toOp (clearOnDirMask m.mask)), m.event_len)
  else
    if m.infoType = FAN_EVENT_INFO_TYPE_FID ∨ m.infoType = FAN_EVENT_INFO_TYPE_DFID then
      if m.openOk = false then (.errSent, m.event_len)
      else (.notifEv (toOp (clearOnDirMask m.mask)), m.event_len)
    else if m.infoType = FAN_EVENT_INFO_TYPE_DFID_NAME then
      if m.openOk = false then (.errSent, m.event_len + m.fileName.length)
      else (.notifEv (toOp (clearOnDirMask m.mask)), m.event_len + m.fileName.length)
    else (.skipped, m.event_len)

/-- Model of the per-buffer decode loop of `readFanotifyEvents` (part_000
lines 576-686): starting from offset `i` with `n` unread bytes, loop while
`fanotifyEventOK` holds for the metadata re-cast at the current offset; abort
on a metadata-version mismatch (line 582); otherwise handle the record and
advance.  Returns the delivery actions in order together with the final
offset and the final remaining byte count. -/
def readFanotifyLoop (buf : Nat → FanotifyRecord) (i n : Nat) :
    List Step × Nat × Nat :=
  if h : fanotifyEventOK (buf i) n = true then
    if (buf i).vers ≠ FANOTIFY_METADATA_VERSION then ([Step.abortVers], i, n)
    else
      let p := handleRecord (buf i)
      let r := readFanotifyLoop buf (i + p.2) (n - (buf i).event_len)
      (p.1 :: r.1, r.2.1, r.2.2)
  else ([], i, n)
termination_by n
decreasing_by
  simp only [fanotifyEventOK, sizeOfFanotifyEventMetadata, Bool.and_eq_true,
    decide_eq_true_eq] at h
  omega

/-! ## Mount resolver (`getMountPointForPath`, part_000 lines 140-186)

The model takes the `stat` environment (a map from path to either an errno,
as `Except.error`, or the device id, as `Except.ok`) and the lines of
`/etc/fstab` as inputs.  Opening `/etc/fstab` and `bufio.Scanner` I/O errors
are outside the model (the lines are given); everything the function does
with them is modelled. -/

/-- Go's `unicode.IsSpace` restricted to the ASCII white-space characters
(`strings.Fields` splits on these; fstab lines contain no other space
runes). -/
def goIsSpace (c : Char) : Bool :=
  c = ' ' || c = '\t' || c = '\n' || c = '\x0b' || c = '\x0c' || c = '\r'

/-- Model of `strings.TrimLeft(s, " \t")`. -/
def goTrimLeftSpaceTab (s : GoStr) : GoStr :=
  s.dropWhile (fun c => c = ' ' || c = '\t')

/-- Model of `strings.HasPrefix(s, "#")`. -/
def goStartsHash (s : GoStr) : Bool :=
  match s with
  | '#' :: _ => true
  | _ => false

/-- Helper of `goFields`: `acc` holds the (reversed) current field. -/
def goFieldsAux : GoStr → GoStr → List GoStr
  | [], acc => if acc.isEmpty then [] else [acc.reverse]
  | c :: cs, acc =>
    if goIsSpace c then
      if acc.isEmpty then goFieldsAux cs []
      else acc.reverse :: goFieldsAux cs []
    else goFieldsAux cs (c :: acc)

/-- Model of `strings.Fields`: the maximal runs of non-white-space
characters, in order. -/
def goFields (s : GoStr) : List GoStr := goFieldsAux s []

/-- The fstab field value `"swap"`. -/
def swapStr : GoStr := ['s', 'w', 'a', 'p']

/-- Outcome of `getMountPointForPath`.  `found` carries `fields[1]` of the
matching record and the device id of the input path; `statPathError` is the
early `cannot stat path` return; `fstabStatError` the final
`cannot stat paths in fstab: %w` return, carrying the errno that the Go code
has remembered in `fsErr`; `notFound` the unwrapped final error; `aborted` a
Go run-time index-out-of-range abort on a record with fewer than three
fields. -/
inductive MountResult where
  | found (mountPoint : GoStr) (dev : Nat)
  | statPathError (e : Nat)
  | fstabStatError (e : Nat)
  | notFound
  | aborted
deriving DecidableEq, Repr

/-- Model of the scanner loop of `getMountPointForPath` (part_000 lines
155-185): per line, trim left, skip `#`-prefixed and empty lines, split into
fields, skip `swap` records, stat `fields[1]` (remembering the errno in
`fsErr` on failure — each failure overwrites `fsErr`), and return the first
record whose device id equals `devP`.  When the lines are exhausted, return
the `fsErr`-wrapping error if one was remembered, else the bare not-found
error. -/
def mountScanLoop (stat : GoStr → Except Nat Nat) (devP : Nat) :
    List GoStr → Option Nat → MountResult
  | [], fsErr =>
    match fsErr with
    | some e => .fstabStatError e
    | none => .notFound
  | line :: rest, fsErr =>
    let l := goTrimLeftSpaceTab line
    if goStartsHash l then mountScanLoop stat devP rest fsErr
    else if l.isEmpty then mountScanLoop stat devP rest fsErr
    else
      let fields := goFields l
      match fields.get? 2 with
      | none => .aborted
      | some fsType =>
        if fsType = swapStr then mountScanLoop stat devP rest fsErr
        else
          match fields.get? 1 with
          | none => .aborted
          | some mp =>
            match stat mp with
            | .error e => mountScanLoop stat devP rest (some e)
            | .ok dev =>
              if devP = dev then .found mp devP
              else mountScanLoop stat devP rest fsErr

/-- Model of `getMountPointForPath` (part_000 lines 140-186): stat the input
path, then scan the fstab lines with no remembered stat error. -/
def getMountPointForPath (stat : GoStr → Except Nat Nat) (fstabLines : List GoStr)
    (path : GoStr) : MountResult :=
  match stat path with
  | .error e => .statPathError e
  | .ok devP => mountScanLoop stat devP fstabLines none

/-- Modelled from the spec (§4.3): the effective records of the mount table —
the field lists of the lines that survive the skipping rules (lines beginning
with `#` after left-trimming, empty lines, and records whose `fs_type` field
equals `swap` are dropped).  Used as the specification side when comparing
the resolver with the spec's "first remaining record" description. -/
def effectiveFields (lines : List GoStr) : List (List GoStr) :=
  lines.filterMap (fun line =>
    let l := goTrimLeftSpaceTab line
    if goStartsHash l then none
    else if l.isEmpty then none
    else
      let fields := goFields l
      if fields.getD 2 [] = swapStr then none else some fields)

/-- Modelled from the spec (§4.3): the record matches when stat of its
mount-point field succeeds with the device id of the watched path. -/
def recordMatchesDev (stat : GoStr → Except Nat Nat) (devP : Nat)
    (fields : List GoStr) : Bool :=
  match stat (fields.getD 1 []) with
  | .ok dev => decide (devP = dev)
  | .error _ => false

/-- Modelled from the spec (§4.3): the stat errnos encountered over the
effective records, in scan order. -/
def scanStatErrors (stat : GoStr → Except Nat Nat) (lines : List GoStr) : List Nat :=
  (effectiveFields lines).filterMap (fun fields =>
    match stat (fields.getD 1 []) with
    | .error e => some e
    | .ok _ => none)

/-! ## Concrete inputs used by the counterexamples and witnesses below -/

/-- A `FAN_EVENT_INFO_TYPE_DFID_NAME` record of 48 bytes (24 bytes of
metadata plus the info record) carrying the three-character name `abc`;
`event_len` covers the whole record, name included, per the kernel ABI. -/
def recC1a : FanotifyRecord :=
  ⟨48, FANOTIFY_METADATA_VERSION, 24, FAN_CREATE, FAN_NOFD, 100,
   FAN_EVENT_INFO_TYPE_DFID_NAME, ['a', 'b', 'c'], true, true⟩

/-- A classic 24-byte record (kernel-supplied fd, no info record). -/
def recC1b : FanotifyRecord :=
  ⟨24, FANOTIFY_METADATA_VERSION, 24, FAN_OPEN, 7, 100, 0, [], true, true⟩

/-- The view of buffer bytes that hold no record (uninitialised remainder of
the 4096-record read buffer): every field reads as zero. -/
def recZero : FanotifyRecord := ⟨0, 0, 0, 0, 0, 0, 0, [], false, false⟩

/-- A well-formed 72-byte read result: the named record `recC1a` at offset 0
followed by `recC1b` at offset 48 (= `recC1a.event_len`); offsets inside or
past the records expose no further metadata. -/
def bufC1 : Nat → FanotifyRecord :=
  fun k => if k = 0 then recC1a else if k = 48 then recC1b else recZero

/-- A classic permission-request record: `FAN_OPEN_PERM` with the `FAN_ONDIR`
marker set, a kernel-supplied fd, and a successful `readlink`. -/
def recC3 : FanotifyRecord :=
  ⟨48, FANOTIFY_METADATA_VERSION, 24, FAN_OPEN_PERM ||| FAN_ONDIR, 5, 77, 0, [], true, true⟩

/-- A minimal well-formed classic record used by the termination witness. -/
def recC10 : FanotifyRecord :=
  ⟨24, FANOTIFY_METADATA_VERSION, 24, FAN_OPEN, 9, 1, 0, [], true, true⟩

/-- Stat environment with a match: the watched path `/a` and the second
mount point `/m2` live on device 11; stat of the first mount point `/m1`
fails with errno 7. -/
def statC6 : GoStr → Except Nat Nat := fun s =>
  if s = "/a".toList then .ok 11
  else if s = "/m1".toList then .error 7
  else if s = "/m2".toList then .ok 11
  else .error 0

/-- An fstab with a comment line, an empty line, a swap record and two
regular records. -/
def linesC6 : List GoStr :=
  ["# static file system information".toList,
   "".toList,
   "/dev/sda2 none swap".toList,
   "d1 /m1 ext4".toList,
   "d2 /m2 ext4".toList]

/-- Stat environment with no match: the watched path `/a` is on device 11
and stat fails on both mount points, with errno 7 first and errno 9
second. -/
def statC7 : GoStr → Except Nat Nat := fun s =>
  if s = "/a".toList then .ok 11
  else if s = "/m1".toList then .error 7
  else if s = "/m2".toList then .error 9
  else .error 0

/-- An fstab whose two records both fail to stat. -/
def linesC7 : List GoStr :=
  ["d1 /m1 ext4".toList, "d2 /m2 ext4".toList]

/-! # Theorems -/

/-! ## Helper lemmas -/

/-- Unfolding: the decode loop stops when the guard fails. -/
theorem readFanotifyLoop_stop (buf : Nat → FanotifyRecord) (i n : Nat)
    (h : ¬ fanotifyEventOK (buf i) n = true) :
    readFanotifyLoop buf i n = ([], i, n) := by
  rw [readFanotifyLoop]
  simp [h]

/-- Unfolding: one iteration of the decode loop on a version-correct
record. -/
theorem readFanotifyLoop_step (buf : Nat → FanotifyRecord) (i n : Nat)
    (h : fanotifyEventOK (buf i) n = true)
    (hv : (buf i).vers = FANOTIFY_METADATA_VERSION) :
    readFanotifyLoop buf i n =
      ((handleRecord (buf i)).1 ::
          (readFanotifyLoop buf (i + (handleRecord (buf i)).2) (n - (buf i).event_len)).1,
        (readFanotifyLoop buf (i + (handleRecord (buf i)).2) (n - (buf i).event_len)).2) := by
  rw [readFanotifyLoop]
  simp [h, hv]

/-- The `Permission*` content of `toOp` is exactly the permission-routing
test of the decoder. -/
theorem toOp_hasPermission (e : Nat) : (toOp e).hasPermission = hasPermBits e := by
  simp only [toOp, Op.hasPermission, hasPermBits]
  cases hasBits e FAN_ACCESS_PERM <;> cases hasBits e FAN_OPEN_PERM <;>
    cases hasBits e FAN_OPEN_EXEC_PERM <;> rfl

/-- The support loop returns the version verdict of the first entry (in
iteration order) whose flag is fully contained in `flags`, and `true` when
no entry's flag is contained in `flags`. -/
theorem flagsKernelSupportLoop_eq_find (flags maj min : Nat) (order : List FlagEntry) :
    flagsKernelSupportLoop flags maj min order =
      ((order.find? (fun e => flags &&& e.flag == e.flag)).all
        (fun e => flagVersionOK e maj min)) := by
  induction order with
  | nil => rfl
  | cons e rest ih =>
    by_cases h : flags &&& e.flag = e.flag
    · simp [flagsKernelSupportLoop, List.find?, h, Option.all]
    · simp only [flagsKernelSupportLoop, List.find?, if_neg h, ih]
      have hb : (flags &&& e.flag == e.flag) = false := by simpa using h
      simp [hb]

/-- Unfolding: the decode loop aborts on a metadata-version mismatch. -/
theorem readFanotifyLoop_abort (buf : Nat → FanotifyRecord) (i n : Nat)
    (h : fanotifyEventOK (buf i) n = true)
    (hv : ¬ (buf i).vers = FANOTIFY_METADATA_VERSION) :
    readFanotifyLoop buf i n = ([Step.abortVers], i, n) := by
  rw [readFanotifyLoop]
  simp [h, hv]

/-! ## C1: advance invariant of the decoder loop (code bug)

On the 72-byte buffer `bufC1` — a well-formed `DFID_NAME` record of 48 bytes
carrying the name `abc` followed by a well-formed classic record of 24 bytes
at offset 48 — the loop's first iteration advances the offset by
`event_len + len(fileName) = 51` (line 645 adds `len(fileName)` on top of
the `event_len` advance), while `n` drops only by `event_len = 48`.  The
re-cast at offset 51 misses the second record, the guard fails, and the loop
exits having consumed 48 of the 72 bytes and decoded one of the two
records. -/
theorem C1_dfidNameAdvanceDrift :
    readFanotifyLoop bufC1 0 72 = ([Step.notifEv (toOp FAN_CREATE)], 51, 24) ∧
    (handleRecord recC1a).2 = recC1a.event_len + 3 ∧
    recC1a.event_len + recC1b.event_len = 72 ∧
    fanotifyEventOK (bufC1 48) 24 = true := by
  refine ⟨?_, by decide, by decide, by decide⟩
  rw [readFanotifyLoop_step bufC1 0 72 (by decide) (by decide)]
  have h1 : handleRecord (bufC1 0) = (Step.notifEv (toOp FAN_CREATE), 51) := by decide
  have h2 : (bufC1 0).event_len = 48 := by decide
  rw [h1, h2]
  norm_num
  rw [readFanotifyLoop_stop bufC1 51 24 (by decide)]
  exact ⟨rfl, rfl⟩

/-! ## C2: idempotence of close (code bug in the unguarded variant) -/

/-- `closeFanotify` (guarded by `closeOnce`) is idempotent, but
`(*FanotifyWatcher).Close` of backend_fanotify.go is not: the first call on
a fresh watcher succeeds, and a second call reaches `close(w.Events)` on an
already-closed channel, aborting the program. -/
theorem C2_closeIdempotence :
    (∀ s : WatcherCloseState, closeFanotify (closeFanotify s) = closeFanotify s) ∧
    (fanotifyWatcherClose initialWatcherState).isSome = true ∧
    (fanotifyWatcherClose initialWatcherState).bind fanotifyWatcherClose = none := by
  refine ⟨?_, by decide, by decide⟩
  intro s
  by_cases h : s.onceDone
  · simp [closeFanotify, h]
  · simp [closeFanotify, h]

/-! ## C4: init-flag negotiation by kernel version -/

/-- The init flags chosen by `newFanotifyWatcher` are exactly
`NOTIF|CLOEXEC` below kernel 5.1, `NOTIF|CLOEXEC|REPORT_FID` for kernels 5.1
through 5.8, and `NOTIF|CLOEXEC|REPORT_DIR_FID|REPORT_NAME` from 5.9 on
(including every major above 5). -/
theorem C4_initFlagNegotiation (maj min : Nat) :
    ((maj < 5 ∨ (maj = 5 ∧ min < 1)) →
      newWatcherInitFlags maj min = (FAN_CLASS_NOTIF ||| FAN_CLOEXEC)) ∧
    ((maj = 5 ∧ 1 ≤ min ∧ min ≤ 8) →
      newWatcherInitFlags maj min =
        (FAN_CLASS_NOTIF ||| FAN_CLOEXEC ||| FAN_REPORT_FID)) ∧
    ((maj > 5 ∨ (maj = 5 ∧ 9 ≤ min)) →
      newWatcherInitFlags maj min =
        (FAN_CLASS_NOTIF ||| FAN_CLOEXEC ||| FAN_REPORT_DIR_FID ||| FAN_REPORT_NAME)) := by
  refine ⟨?_, ?_, ?_⟩ <;> intro h <;> unfold newWatcherInitFlags <;>
    split_ifs <;> first | rfl | omega

/-- Witness: kernel 5.9 negotiates the `REPORT_DIR_FID|REPORT_NAME` flag
set. -/
theorem C4_witness :
    (5 > 5 ∨ (5 = 5 ∧ 9 ≤ 9)) ∧
    newWatcherInitFlags 5 9 =
      (FAN_CLASS_NOTIF ||| FAN_CLOEXEC ||| FAN_REPORT_DIR_FID ||| FAN_REPORT_NAME) :=
  ⟨by omega, (C4_initFlagNegotiation 5 9).2.2 (by omega)⟩

/-! ## C5: kernel-support check (corrected)

The Go support functions range over a map and return the verdict of the
FIRST listed flag found set, so a flag set containing several listed flags
is not checked flag-by-flag: the claim's "accepts iff every present listed
flag is satisfied" fails.  Map iteration order is unspecified in Go, so any
order of the table entries is a possible execution. -/

/-- Counterexample to C5 as stated: on kernel 5.5 with
`flags = REPORT_FID|REPORT_DIR_FID`, the table order that visits
`REPORT_FID` first (the source-text order) accepts the set although
`REPORT_DIR_FID` is present and needs kernel 5.9; the reversed order rejects
the same set, exhibiting the order dependence. -/
theorem C5_counterexample :
    flagsKernelSupportLoop (FAN_REPORT_FID ||| FAN_REPORT_DIR_FID) 5 5
        fanotifyInitFlagTable = true ∧
    (FAN_REPORT_FID ||| FAN_REPORT_DIR_FID) &&& FAN_REPORT_DIR_FID =
        FAN_REPORT_DIR_FID ∧
    (⟨FAN_REPORT_DIR_FID, 5, 9⟩ : FlagEntry) ∈ fanotifyInitFlagTable ∧
    flagVersionOK ⟨FAN_REPORT_DIR_FID, 5, 9⟩ 5 5 = false ∧
    flagsKernelSupportLoop (FAN_REPORT_FID ||| FAN_REPORT_DIR_FID) 5 5
        fanotifyInitFlagTable.reverse = false := by
  decide

/-- Amended claim: for every iteration order of either support table, the
check accepts the flag set iff the FIRST table entry (in that order) whose
flag is contained in the set has its minimum kernel version satisfied; a set
containing none of the listed flags is accepted on any kernel. -/
theorem C5_supportCheckFirstSetFlag (order : List FlagEntry) (flags maj min : Nat)
    (horder : order.Perm fanotifyInitFlagTable ∨ order.Perm fanotifyMarkFlagTable) :
    flagsKernelSupportLoop flags maj min order =
      ((order.find? (fun e => flags &&& e.flag == e.flag)).all
        (fun e => flagVersionOK e maj min)) := by
  clear horder
  exact flagsKernelSupportLoop_eq_find flags maj min order

/-- Witness: the init table in source order, `flags = REPORT_FID|ENABLE_AUDIT`
on kernel 5.3. -/
theorem C5_witness :
    (fanotifyInitFlagTable.Perm fanotifyInitFlagTable ∨
      fanotifyInitFlagTable.Perm fanotifyMarkFlagTable) ∧
    flagsKernelSupportLoop (FAN_REPORT_FID ||| FAN_ENABLE_AUDIT) 5 3
        fanotifyInitFlagTable =
      ((fanotifyInitFlagTable.find?
          (fun e => (FAN_REPORT_FID ||| FAN_ENABLE_AUDIT) &&& e.flag == e.flag)).all
        (fun e => flagVersionOK e 5 3)) :=
  ⟨Or.inl (List.Perm.refl _),
   C5_supportCheckFirstSetFlag fanotifyInitFlagTable _ 5 3 (Or.inl (List.Perm.refl _))⟩

/-! ## C8: mount-scope mark validation -/

/-- A mark request with `FAN_MARK_MOUNT` whose mask contains `FAN_CREATE`,
`FAN_ATTRIB`, `FAN_MOVE`, `FAN_DELETE_SELF` or `FAN_DELETE` never reaches
the `unix.FanotifyMark` syscall, and — whenever the kernel-support check on
the mask passes, so the call does not abort there first — it returns the
`errInvalidFlagCombination` error. -/
theorem C8_mountMarkValidation (order : List FlagEntry) (maj min flags mask : Nat)
    (hmount : hasBits flags FAN_MARK_MOUNT = true)
    (hbad : hasBits mask FAN_CREATE = true ∨ hasBits mask FAN_ATTRIB = true ∨
      hasBits mask FAN_MOVE = true ∨ hasBits mask FAN_DELETE_SELF = true ∨
      hasBits mask FAN_DELETE = true) :
    (∀ f m, fanotifyMark order maj min flags mask ≠ MarkResult.syscalled f m) ∧
    (flagsKernelSupportLoop mask maj min order = true →
      fanotifyMark order maj min flags mask = MarkResult.invalidCombo) := by
  have hval : isFanotifyMarkMaskValid flags mask = false := by
    simp only [isFanotifyMarkMaskValid, hmount, if_true]
    rcases hbad with h | h | h | h | h <;> simp [h]
  constructor
  · intro f m
    unfold fanotifyMark
    split
    · simp
    · simp [hval]
  · intro hs
    unfold fanotifyMark
    simp [hs, hval]

/-- Witness: an add-to-mount mark with a `FAN_CREATE` mask on kernel 5.10
(which supports `FAN_CREATE`) yields the invalid-combination error without
reaching the syscall. -/
theorem C8_witness :
    hasBits (FAN_MARK_ADD ||| FAN_MARK_MOUNT) FAN_MARK_MOUNT = true ∧
    hasBits FAN_CREATE FAN_CREATE = true ∧
    flagsKernelSupportLoop FAN_CREATE 5 10 fanotifyMarkFlagTable = true ∧
    fanotifyMark fanotifyMarkFlagTable 5 10 (FAN_MARK_ADD ||| FAN_MARK_MOUNT)
        FAN_CREATE = MarkResult.invalidCombo :=
  ⟨by decide, by decide, by decide,
   (C8_mountMarkValidation fanotifyMarkFlagTable 5 10 _ _ (by decide)
      (Or.inl (by decide))).2 (by decide)⟩

/-! ## C9: kernel-version parsing (code bug)

The Go code indexes `version[0]`, `version[1]`, `version[2]` without
checking how many decimal runs the regexp found; a release string with fewer
than three numeric groups makes the program abort (index out of range)
instead of returning a parse error, contradicting both the spec (§4.1) and
the function's own doc comment. -/

/-- On release strings with zero or two numeric groups `kernelVersion`
aborts; with three or more it returns the first three runs parsed. -/
theorem C9_kernelVersionShortRelease :
    kernelVersionOf ("linux-generic".toList) = KernelVersionResult.aborted ∧
    digitRuns ("linux-generic".toList) = [] ∧
    kernelVersionOf ("5.15".toList) = KernelVersionResult.aborted ∧
    kernelVersionOf ("5.15.0-92-generic".toList) = KernelVersionResult.ok 5 15 0 := by
  decide

/-! ## C10: termination of the decode loop -/

/-- The loop guard admits only records whose `event_len` is at least the
metadata size and at most the remaining count, so the remaining count
strictly decreases each iteration; consequently the decode loop performs at
most `n / 24` iterations on `n` remaining bytes. -/
theorem C10_decodeLoopTerminates :
    (∀ (m : FanotifyRecord) (n : Nat), fanotifyEventOK m n = true →
      sizeOfFanotifyEventMetadata ≤ m.event_len ∧ m.event_len ≤ n ∧
        n - m.event_len < n) ∧
    (∀ (buf : Nat → FanotifyRecord) (i n : Nat),
      (readFanotifyLoop buf i n).1.length ≤ n / sizeOfFanotifyEventMetadata) := by
  constructor
  · intro m n h
    simp only [fanotifyEventOK, sizeOfFanotifyEventMetadata, Bool.and_eq_true,
      decide_eq_true_eq] at h ⊢
    omega
  · intro buf i n
    induction n using Nat.strong_induction_on generalizing i with
    | _ n ih =>
      by_cases h : fanotifyEventOK (buf i) n = true
      · have hg := h
        simp only [fanotifyEventOK, sizeOfFanotifyEventMetadata, Bool.and_eq_true,
          decide_eq_true_eq] at hg
        by_cases hv : (buf i).vers = FANOTIFY_METADATA_VERSION
        · rw [readFanotifyLoop_step buf i n h hv]
          have hrec := ih (n - (buf i).event_len) (by omega) (i + (handleRecord (buf i)).2)
          simp only [List.length_cons, sizeOfFanotifyEventMetadata] at hrec ⊢
          omega
        · rw [readFanotifyLoop_abort buf i n h hv]
          simp only [List.length_singleton, sizeOfFanotifyEventMetadata]
          omega
      · rw [readFanotifyLoop_stop buf i n h]
        simp

/-- Witness: a concrete well-formed record and remaining count satisfying
the guard and the decrease facts. -/
theorem C10_witness :
    fanotifyEventOK recC10 30 = true ∧
    (sizeOfFanotifyEventMetadata ≤ recC10.event_len ∧ recC10.event_len ≤ 30 ∧
      30 - recC10.event_len < 30) :=
  ⟨by decide, C10_decodeLoopTerminates.1 recC10 30 (by decide)⟩

/-! ## C3: permission routing

The hypothesis `hker` is the kernel-side invariant stated by the spec and by
the source comment at part_000 lines 676-677: as of kernels up to 6.0,
FID-mode records (`fd = FAN_NOFD`) never carry `*_PERM` mask bits. -/

/-- For every record the decoder delivers: a record whose ON_DIR-cleared
mask contains a `*_PERM` bit is delivered on the permission stream (when its
`readlink` succeeds) and its `Op` contains a `Permission*` variant; every
event on the permission stream contains a `Permission*` variant; no event on
the notification stream contains one; and a deliverable FID record goes to
the notification stream. -/
theorem C3_permissionRouting (m : FanotifyRecord)
    (hker : m.fd = FAN_NOFD → hasPermBits (clearOnDirMask m.mask) = false) :
    (hasPermBits (clearOnDirMask m.mask) = true → m.readlinkOk = true →
      (handleRecord m).1 = Step.permEv (toOp (clearOnDirMask m.mask)) ∧
      (toOp (clearOnDirMask m.mask)).hasPermission = true) ∧
    (∀ op, (handleRecord m).1 = Step.permEv op → op.hasPermission = true) ∧
    (∀ op, (handleRecord m).1 = Step.notifEv op →
      op.hasPermission = false ∧ hasPermBits (clearOnDirMask m.mask) = false) ∧
    (m.fd = FAN_NOFD →
      (m.infoType = FAN_EVENT_INFO_TYPE_FID ∨ m.infoType = FAN_EVENT_INFO_TYPE_DFID ∨
        m.infoType = FAN_EVENT_INFO_TYPE_DFID_NAME) →
      m.openOk = true →
      (handleRecord m).1 = Step.notifEv (toOp (clearOnDirMask m.mask))) := by
  by_cases hfd : m.fd = FAN_NOFD
  · have hnp : hasPermBits (clearOnDirMask m.mask) = false := hker hfd
    have hbody : handleRecord m =
        (if m.infoType = FAN_EVENT_INFO_TYPE_FID ∨
            m.infoType = FAN_EVENT_INFO_TYPE_DFID then
          if m.openOk = false then (Step.errSent, m.event_len)
          else (Step.notifEv (toOp (clearOnDirMask m.mask)), m.event_len)
        else if m.infoType = FAN_EVENT_INFO_TYPE_DFID_NAME then
          if m.openOk = false then (Step.errSent, m.event_len + m.fileName.length)
          else (Step.notifEv (toOp (clearOnDirMask m.mask)),
            m.event_len + m.fileName.length)
        else (Step.skipped, m.event_len)) := by
      unfold handleRecord
      exact if_neg (not_not_intro hfd)
    refine ⟨?_, ?_, ?_, ?_⟩
    · intro hp
      rw [hnp] at hp
      exact absurd hp (by simp)
    · intro op hop
      rw [hbody] at hop
      split at hop
      · split at hop <;> simp_all
      · split at hop
        · split at hop <;> simp_all
        · simp_all
    · intro op hop
      rw [hbody] at hop
      split at hop
      · split at hop
        · simp_all
        · obtain rfl : toOp (clearOnDirMask m.mask) = op := by simpa using hop
          rw [toOp_hasPermission]
          exact ⟨hnp, hnp⟩
      · split at hop
        · split at hop
          · simp_all
          · obtain rfl : toOp (clearOnDirMask m.mask) = op := by simpa using hop
            rw [toOp_hasPermission]
            exact ⟨hnp, hnp⟩
        · simp_all
    · intro _ hinfo ho
      rw [hbody]
      rcases hinfo with h1 | h1 | h1
      · rw [if_pos (Or.inl h1)]
        simp [ho]
      · rw [if_pos (Or.inr h1)]
        simp [ho]
      · rw [if_neg (by simp [h1, FAN_EVENT_INFO_TYPE_FID, FAN_EVENT_INFO_TYPE_DFID,
            FAN_EVENT_INFO_TYPE_DFID_NAME]), if_pos h1]
        simp [ho]
  · have hbody : handleRecord m =
        (if m.readlinkOk = false then (Step.errSent, m.event_len)
         else if hasPermBits (clearOnDirMask m.mask) then
           (Step.permEv (toOp (clearOnDirMask m.mask)), m.event_len)
         else (Step.notifEv (toOp (clearOnDirMask m.mask)), m.event_len)) := by
      unfold handleRecord
      exact if_pos hfd
    refine ⟨?_, ?_, ?_, ?_⟩
    · intro hp hrl
      rw [hbody]
      simp [hrl, hp, toOp_hasPermission]
    · intro op hop
      rw [hbody] at hop
      split at hop
      · simp_all
      · split at hop
        · obtain rfl : toOp (clearOnDirMask m.mask) = op := by simpa using hop
          rw [toOp_hasPermission]
          assumption
        · simp_all
    · intro op hop
      rw [hbody] at hop
      split at hop
      · simp_all
      · split at hop
        · simp_all
        · obtain rfl : toOp (clearOnDirMask m.mask) = op := by simpa using hop
          rename_i hc
          have hcf : hasPermBits (clearOnDirMask m.mask) = false := by
            simpa using hc
          rw [toOp_hasPermission]
          exact ⟨hcf, hcf⟩
    · intro h
      exact absurd h hfd

/-- Unfolding: the effective records of a non-empty mount table. -/
theorem effectiveFields_cons (line : GoStr) (rest : List GoStr) :
    effectiveFields (line :: rest) =
      (if goStartsHash (goTrimLeftSpaceTab line) then effectiveFields rest
       else if (goTrimLeftSpaceTab line).isEmpty then effectiveFields rest
       else if (goFields (goTrimLeftSpaceTab line)).getD 2 [] = swapStr then
         effectiveFields rest
       else goFields (goTrimLeftSpaceTab line) :: effectiveFields rest) := by
  unfold effectiveFields
  rw [List.filterMap_cons]
  split_ifs <;> simp_all

/-- The scan loop returns `found mp devP` iff the first effective record
whose mount-point field stats to the watched device exists and has
mount-point field `mp` (the remembered stat error is irrelevant to the
`found` outcome). -/
theorem mountScanLoop_found_iff (stat : GoStr → Except Nat Nat) (devP : Nat)
    (mp : GoStr) (lines : List GoStr) :
    ∀ fsErr : Option Nat, (∀ f ∈ effectiveFields lines, 3 ≤ f.length) →
      (mountScanLoop stat devP lines fsErr = MountResult.found mp devP ↔
        ((effectiveFields lines).find? (recordMatchesDev stat devP)).map
          (fun f => f.getD 1 []) = some mp) := by
  induction lines with
  | nil =>
    intro fsErr _
    cases fsErr <;> simp [mountScanLoop, effectiveFields]
  | cons line rest ih =>
    intro fsErr hwf
    by_cases h1 : goStartsHash (goTrimLeftSpaceTab line) = true
    · rw [effectiveFields_cons, if_pos h1] at hwf ⊢
      simp only [mountScanLoop, if_pos h1]
      exact ih fsErr hwf
    · by_cases h2 : (goTrimLeftSpaceTab line).isEmpty = true
      · rw [effectiveFields_cons, if_neg h1, if_pos h2] at hwf ⊢
        simp only [mountScanLoop, if_neg h1, if_pos h2]
        exact ih fsErr hwf
      · cases hg2 : (goFields (goTrimLeftSpaceTab line)).get? 2 with
        | none =>
          exfalso
          have hgD : (goFields (goTrimLeftSpaceTab line)).getD 2 [] = [] := by
            rw [List.getD_eq_getElem?_getD, ← List.get?_eq_getElem?, hg2]
            rfl
          rw [effectiveFields_cons, if_neg h1, if_neg h2, hgD,
            if_neg (by decide : ¬(([] : GoStr) = swapStr))] at hwf
          have hlen := hwf (goFields (goTrimLeftSpaceTab line))
            (List.mem_cons_self _ _)
          have hle : (goFields (goTrimLeftSpaceTab line)).length ≤ 2 :=
            List.get?_eq_none.mp hg2
          omega
        | some fsType =>
          have hgD : (goFields (goTrimLeftSpaceTab line)).getD 2 [] = fsType := by
            rw [List.getD_eq_getElem?_getD, ← List.get?_eq_getElem?, hg2]
            rfl
          by_cases hsw : fsType = swapStr
          · rw [effectiveFields_cons, if_neg h1, if_neg h2, hgD, if_pos hsw]
              at hwf ⊢
            simp only [mountScanLoop, if_neg h1, if_neg h2, hg2, if_pos hsw]
            exact ih fsErr hwf
          · rw [effectiveFields_cons, if_neg h1, if_neg h2, hgD, if_neg hsw]
              at hwf ⊢
            have hlen : 3 ≤ (goFields (goTrimLeftSpaceTab line)).length :=
              hwf _ (List.mem_cons_self _ _)
            have hwfr : ∀ f ∈ effectiveFields rest, 3 ≤ f.length :=
              fun f hf => hwf f (List.mem_cons_of_mem _ hf)
            have hlt : 1 < (goFields (goTrimLeftSpaceTab line)).length := by omega
            have hg1 : (goFields (goTrimLeftSpaceTab line)).get? 1 =
                some ((goFields (goTrimLeftSpaceTab line)).get ⟨1, hlt⟩) :=
              List.get?_eq_get hlt
            have hgD1 : (goFields (goTrimLeftSpaceTab line)).getD 1 [] =
                (goFields (goTrimLeftSpaceTab line)).get ⟨1, hlt⟩ := by
              rw [List.getD_eq_getElem?_getD, ← List.get?_eq_getElem?, hg1]
              rfl
            cases hst : stat ((goFields (goTrimLeftSpaceTab line)).get ⟨1, hlt⟩) with
            | error e =>
              have hpred : recordMatchesDev stat devP
                  (goFields (goTrimLeftSpaceTab line)) = false := by
                simp only [recordMatchesDev]
                rw [hgD1, hst]
              rw [List.find?_cons_of_neg _ (by simp [hpred])]
              simp only [mountScanLoop, if_neg h1, if_neg h2, hg2, if_neg hsw,
                hg1, hst]
              exact ih (some e) hwfr
            | ok dev =>
              by_cases hdev : devP = dev
              · have hpred : recordMatchesDev stat devP
                    (goFields (goTrimLeftSpaceTab line)) = true := by
                  simp only [recordMatchesDev]
                  rw [hgD1, hst]
                  simp [hdev]
                rw [List.find?_cons_of_pos _ (by simp [hpred])]
                simp only [mountScanLoop, if_neg h1, if_neg h2, hg2, if_neg hsw,
                  hg1, hst, if_pos hdev]
                have hx : (goFields (goTrimLeftSpaceTab line))[1]? =
                    some ((goFields (goTrimLeftSpaceTab line)).get ⟨1, hlt⟩) := by
                  rw [← List.get?_eq_getElem?, hg1]
                simp [hgD1, eq_comm, hx]
              · have hpred : recordMatchesDev stat devP
                    (goFields (goTrimLeftSpaceTab line)) = false := by
                  simp only [recordMatchesDev]
                  rw [hgD1, hst]
                  simp [hdev]
                rw [List.find?_cons_of_neg _ (by simp [hpred])]
                simp only [mountScanLoop, if_neg h1, if_neg h2, hg2, if_neg hsw,
                  hg1, hst, if_neg hdev]
                exact ih fsErr hwfr

/-- Unfolding: the scan errors of a table starting with an effective record
whose mount-point field fails to stat. -/
theorem scanStatErrors_cons_err (stat : GoStr → Except Nat Nat) (line : GoStr)
    (rest : List GoStr)
    (h1 : ¬ goStartsHash (goTrimLeftSpaceTab line) = true)
    (h2 : ¬ (goTrimLeftSpaceTab line).isEmpty = true)
    (hswD : ¬ (goFields (goTrimLeftSpaceTab line)).getD 2 [] = swapStr)
    (e : Nat)
    (hst : stat ((goFields (goTrimLeftSpaceTab line)).getD 1 []) = .error e) :
    scanStatErrors stat (line :: rest) = e :: scanStatErrors stat rest := by
  unfold scanStatErrors
  rw [effectiveFields_cons, if_neg h1, if_neg h2, if_neg hswD]
  simp only [List.filterMap_cons, hst]

/-- Unfolding: the scan errors of a table starting with an effective record
whose mount-point field stats successfully. -/
theorem scanStatErrors_cons_ok (stat : GoStr → Except Nat Nat) (line : GoStr)
    (rest : List GoStr)
    (h1 : ¬ goStartsHash (goTrimLeftSpaceTab line) = true)
    (h2 : ¬ (goTrimLeftSpaceTab line).isEmpty = true)
    (hswD : ¬ (goFields (goTrimLeftSpaceTab line)).getD 2 [] = swapStr)
    (dev : Nat)
    (hst : stat ((goFields (goTrimLeftSpaceTab line)).getD 1 []) = .ok dev) :
    scanStatErrors stat (line :: rest) = scanStatErrors stat rest := by
  unfold scanStatErrors
  rw [effectiveFields_cons, if_neg h1, if_neg h2, if_neg hswD]
  simp only [List.filterMap_cons, hst]

/-- Unfolding: the scan errors of a table starting with a skipped line. -/
theorem scanStatErrors_cons_skip (stat : GoStr → Except Nat Nat) (line : GoStr)
    (rest : List GoStr)
    (heff : effectiveFields (line :: rest) = effectiveFields rest) :
    scanStatErrors stat (line :: rest) = scanStatErrors stat rest := by
  unfold scanStatErrors
  rw [heff]

/-- When no effective record matches the watched device, the scan loop runs
to the end of the table (stat errors never abort it) and returns the error
wrapping the LAST stat errno encountered — each failure overwrites the
remembered one — or, when no stat failed, the remembered error passed in
(the bare not-found error when none). -/
theorem mountScanLoop_noMatch (stat : GoStr → Except Nat Nat) (devP : Nat)
    (lines : List GoStr) :
    ∀ fsErr : Option Nat, (∀ f ∈ effectiveFields lines, 3 ≤ f.length) →
      (effectiveFields lines).find? (recordMatchesDev stat devP) = none →
      mountScanLoop stat devP lines fsErr =
        (match (scanStatErrors stat lines).getLast? with
         | some e => MountResult.fstabStatError e
         | none =>
           match fsErr with
           | some e => MountResult.fstabStatError e
           | none => MountResult.notFound) := by
  induction lines with
  | nil =>
    intro fsErr _ _
    cases fsErr <;> simp [mountScanLoop, scanStatErrors, effectiveFields]
  | cons line rest ih =>
    intro fsErr hwf hnm
    by_cases h1 : goStartsHash (goTrimLeftSpaceTab line) = true
    · have heff : effectiveFields (line :: rest) = effectiveFields rest := by
        rw [effectiveFields_cons, if_pos h1]
      rw [heff] at hwf hnm
      rw [scanStatErrors_cons_skip stat line rest heff]
      simp only [mountScanLoop, if_pos h1]
      exact ih fsErr hwf hnm
    · by_cases h2 : (goTrimLeftSpaceTab line).isEmpty = true
      · have heff : effectiveFields (line :: rest) = effectiveFields rest := by
          rw [effectiveFields_cons, if_neg h1, if_pos h2]
        rw [heff] at hwf hnm
        rw [scanStatErrors_cons_skip stat line rest heff]
        simp only [mountScanLoop, if_neg h1, if_pos h2]
        exact ih fsErr hwf hnm
      · cases hg2 : (goFields (goTrimLeftSpaceTab line)).get? 2 with
        | none =>
          exfalso
          have hgD : (goFields (goTrimLeftSpaceTab line)).getD 2 [] = [] := by
            rw [List.getD_eq_getElem?_getD, ← List.get?_eq_getElem?, hg2]
            rfl
          rw [effectiveFields_cons, if_neg h1, if_neg h2, hgD,
            if_neg (by decide : ¬(([] : GoStr) = swapStr))] at hwf
          have hlen := hwf (goFields (goTrimLeftSpaceTab line))
            (List.mem_cons_self _ _)
          have hle : (goFields (goTrimLeftSpaceTab line)).length ≤ 2 :=
            List.get?_eq_none.mp hg2
          omega
        | some fsType =>
          have hgD : (goFields (goTrimLeftSpaceTab line)).getD 2 [] = fsType := by
            rw [List.getD_eq_getElem?_getD, ← List.get?_eq_getElem?, hg2]
            rfl
          by_cases hsw : fsType = swapStr
          · have heff : effectiveFields (line :: rest) = effectiveFields rest := by
              rw [effectiveFields_cons, if_neg h1, if_neg h2, hgD, if_pos hsw]
            rw [heff] at hwf hnm
            rw [scanStatErrors_cons_skip stat line rest heff]
            simp only [mountScanLoop, if_neg h1, if_neg h2, hg2, if_pos hsw]
            exact ih fsErr hwf hnm
          · have hswD : ¬ (goFields (goTrimLeftSpaceTab line)).getD 2 [] = swapStr := by
              rw [hgD]
              exact hsw
            have heff : effectiveFields (line :: rest) =
                goFields (goTrimLeftSpaceTab line) :: effectiveFields rest := by
              rw [effectiveFields_cons, if_neg h1, if_neg h2, if_neg hswD]
            rw [heff] at hwf hnm
            have hlen : 3 ≤ (goFields (goTrimLeftSpaceTab line)).length :=
              hwf _ (List.mem_cons_self _ _)
            have hwfr : ∀ f ∈ effectiveFields rest, 3 ≤ f.length :=
              fun f hf => hwf f (List.mem_cons_of_mem _ hf)
            have hlt : 1 < (goFields (goTrimLeftSpaceTab line)).length := by omega
            have hg1 : (goFields (goTrimLeftSpaceTab line)).get? 1 =
                some ((goFields (goTrimLeftSpaceTab line)).get ⟨1, hlt⟩) :=
              List.get?_eq_get hlt
            have hgD1 : (goFields (goTrimLeftSpaceTab line)).getD 1 [] =
                (goFields (goTrimLeftSpaceTab line)).get ⟨1, hlt⟩ := by
              rw [List.getD_eq_getElem?_getD, ← List.get?_eq_getElem?, hg1]
              rfl
            cases hst : stat ((goFields (goTrimLeftSpaceTab line)).get ⟨1, hlt⟩) with
            | error e =>
              have hpred : recordMatchesDev stat devP
                  (goFields (goTrimLeftSpaceTab line)) = false := by
                simp only [recordMatchesDev]
                rw [hgD1, hst]
              rw [List.find?_cons_of_neg _ (by simp [hpred])] at hnm
              have hstD : stat ((goFields (goTrimLeftSpaceTab line)).getD 1 []) =
                  .error e := by
                rw [hgD1]
                exact hst
              rw [scanStatErrors_cons_err stat line rest h1 h2 hswD e hstD]
              simp only [mountScanLoop, if_neg h1, if_neg h2, hg2, if_neg hsw,
                hg1, hst]
              have hih := ih (some e) hwfr hnm
              cases hS : scanStatErrors stat rest with
              | nil =>
                rw [hS] at hih
                exact hih
              | cons s t =>
                rw [hS] at hih
                rw [List.getLast?_cons_cons]
                obtain ⟨x, hx⟩ := Option.isSome_iff_exists.mp
                  (List.getLast?_isSome.mpr (by simp) :
                    ((s :: t).getLast?).isSome)
                rw [hx] at hih ⊢
                exact hih
            | ok dev =>
              by_cases hdev : devP = dev
              · exfalso
                have hpred : recordMatchesDev stat devP
                    (goFields (goTrimLeftSpaceTab line)) = true := by
                  simp only [recordMatchesDev]
                  rw [hgD1, hst]
                  simp [hdev]
                rw [List.find?_cons_of_pos _ (by simp [hpred])] at hnm
                simp at hnm
              · have hpred : recordMatchesDev stat devP
                    (goFields (goTrimLeftSpaceTab line)) = false := by
                  simp only [recordMatchesDev]
                  rw [hgD1, hst]
                  simp [hdev]
                rw [List.find?_cons_of_neg _ (by simp [hpred])] at hnm
                have hstD : stat ((goFields (goTrimLeftSpaceTab line)).getD 1 []) =
                    .ok dev := by
                  rw [hgD1]
                  exact hst
                rw [scanStatErrors_cons_ok stat line rest h1 h2 hswD dev hstD]
                simp only [mountScanLoop, if_neg h1, if_neg h2, hg2, if_neg hsw,
                  hg1, hst, if_neg hdev]
                exact ih fsErr hwfr hnm

/-- Witness: a classic `FAN_OPEN_PERM|FAN_ONDIR` record with a successful
`readlink` is delivered on the permission stream with `PermissionToOpen`
set. -/
theorem C3_witness :
    (recC3.fd = FAN_NOFD → hasPermBits (clearOnDirMask recC3.mask) = false) ∧
    ((handleRecord recC3).1 = Step.permEv (toOp (clearOnDirMask recC3.mask)) ∧
      (toOp (clearOnDirMask recC3.mask)).hasPermission = true) :=
  ⟨by decide, (C3_permissionRouting recC3 (by decide)).1 (by decide) (by decide)⟩

/-! ## C6: mount resolution -/

/-- The mount resolver skips comment, empty and `swap` lines and returns
`found mp dev_P` — `dev_P` being the device of the watched path — exactly
when the first remaining record whose mount-point field stats to `dev_P`
has mount-point field `mp`.  The hypotheses say that stat of the watched
path succeeds and that every effective mount-table record has at least three
fields (on a shorter record the Go code indexes out of range). -/
theorem C6_mountResolverFirstMatch (stat : GoStr → Except Nat Nat)
    (lines : List GoStr) (path : GoStr) (devP : Nat) (mp : GoStr)
    (hstat : stat path = Except.ok devP)
    (hwf : ∀ f ∈ effectiveFields lines, 3 ≤ f.length) :
    (getMountPointForPath stat lines path = MountResult.found mp devP ↔
      ((effectiveFields lines).find? (recordMatchesDev stat devP)).map
        (fun f => f.getD 1 []) = some mp) := by
  unfold getMountPointForPath
  rw [hstat]
  exact mountScanLoop_found_iff stat devP mp lines none hwf

/-- Witness: on a table with a comment, an empty line, a swap record, a
record whose stat fails and a matching record, the resolver returns the
matching mount point together with the path's device id. -/
theorem C6_witness :
    statC6 ("/a".toList) = Except.ok 11 ∧
    (∀ f ∈ effectiveFields linesC6, 3 ≤ f.length) ∧
    (getMountPointForPath statC6 linesC6 ("/a".toList) =
        MountResult.found ("/m2".toList) 11 ↔
      ((effectiveFields linesC6).find? (recordMatchesDev statC6 11)).map
        (fun f => f.getD 1 []) = some ("/m2".toList)) :=
  ⟨rfl, by decide,
   C6_mountResolverFirstMatch statC6 linesC6 ("/a".toList) 11 ("/m2".toList)
     rfl (by decide)⟩

/-! ## C7: mount-resolution failure (corrected)

Each failing stat overwrites the remembered error (`fsErr = err` at part_000
line 172), so when no record matches, the error returned wraps the LAST stat
errno of the scan, not the first one the claim states. -/

/-- Counterexample to C7 as stated: with two records whose stats fail with
errno 7 and then errno 9 and no match, the resolver returns the wrap of 9,
the last error, not of 7, the first. -/
theorem C7_counterexample :
    getMountPointForPath statC7 linesC7 ("/a".toList) =
      MountResult.fstabStatError 9 ∧
    scanStatErrors statC7 linesC7 = [7, 9] ∧
    (9 : Nat) ≠ 7 := by
  decide

/-- Amended claim: when no record matches, the resolver fails; if at least
one stat of a record's mount point errored during the scan, the returned
error wraps the LAST such errno (each failure overwrites the remembered
one); otherwise it reports that no mount was found.  Stat errors never abort
the scan early: the whole table is processed, as witnessed by the error list
covering every effective record. -/
theorem C7_mountResolverNoMatch (stat : GoStr → Except Nat Nat)
    (lines : List GoStr) (path : GoStr) (devP : Nat)
    (hstat : stat path = Except.ok devP)
    (hwf : ∀ f ∈ effectiveFields lines, 3 ≤ f.length)
    (hnm : (effectiveFields lines).find? (recordMatchesDev stat devP) = none) :
    getMountPointForPath stat lines path =
      (match (scanStatErrors stat lines).getLast? with
       | some e => MountResult.fstabStatError e
       | none => MountResult.notFound) := by
  unfold getMountPointForPath
  rw [hstat]
  exact (mountScanLoop_noMatch stat devP lines none hwf hnm).trans
    (by cases (scanStatErrors stat lines).getLast? <;> rfl)

/-- Witness: the two-error no-match table returns the wrap of the last
errno. -/
theorem C7_witness :
    statC7 ("/a".toList) = Except.ok 11 ∧
    (∀ f ∈ effectiveFields linesC7, 3 ≤ f.length) ∧
    (effectiveFields linesC7).find? (recordMatchesDev statC7 11) = none ∧
    getMountPointForPath statC7 linesC7 ("/a".toList) =
      (match (scanStatErrors statC7 linesC7).getLast? with
       | some e => MountResult.fstabStatError e
       | none => MountResult.notFound) :=
  ⟨rfl, by decide, by decide,
   C7_mountResolverNoMatch statC7 linesC7 ("/a".toList) 11 rfl (by decide)
     (by decide)⟩
